import Mathlib

/-!
Verification development for the Nuke adaptor of deadline-cloud-for-nuke.

The definitions below are a shallow embedding of
`src/deadline/nuke_adaptor/NukeAdaptor/adaptor.py` (the `NukeAdaptor` class:
its action-queue population, regex log callbacks, progress computation,
pending-exception handling, `on_run` and `on_cleanup`) and of
`src/deadline/nuke_adaptor/NukeClient/nuke_handler.py` (the `NukeHandler`
class: its action dispatch, `continueOnError` render kwarg and the
frame-range parsing in `start_render`).

Modelling conventions:
  * Python dictionaries carrying heterogeneous action data become
    association lists over an `ActionValue` sum type.
  * The adaptor's `ActionsQueue` (from the openjd adaptor runtime) is a
    FIFO list: `enqueue_action` appends at the back, `enqueue_action`
    with `front=True` prepends, dequeue pops the head.
  * Python floats are modelled as exact rationals; `round(x, 2)` is
    round-half-to-even to two decimals (Python's rounding mode).
  * Raised exceptions become `Except` error values; the busy-wait loops
    of `on_run` are modelled by evaluating their guard on the state
    observed when the loop is left.
  * Regex matching of the adaptor's concrete patterns is implemented as
    explicit scanning over the character list of one log line, with the
    same search semantics (leftmost match, greedy digit runs) that
    Python's `re.search` gives those patterns.
-/

namespace Nuke

/-- A value carried in an action's data mapping: the init payload holds
booleans (`continue_on_error`, `proxy`), strings (`script_file`,
`frameRange`) and lists of strings (`write_nodes`, `views`). -/
inductive ActionValue where
  | boolV : Bool → ActionValue
  | strV : String → ActionValue
  | strListV : List String → ActionValue
deriving Repr, DecidableEq

/-- Python truthiness of an `ActionValue`, as `bool(...)` computes it. -/
def ActionValue.truthy : ActionValue → Bool
  | .boolV b => b
  | .strV s => !s.isEmpty
  | .strListV l => !l.isEmpty

/-- `openjd.adaptor_runtime_client.Action`: a named, parameterized unit of
work; `data` is the keyword mapping (an association list here). -/
structure Action where
  name : String
  data : List (String × ActionValue)
deriving Repr, DecidableEq

/-- The initialization payload (`init_data`) after schema validation:
`script_file` is required by the schema; the four allow-listed optional
keys of `_NUKE_INIT_KEYS` are `Option`s (`none` = key absent). -/
structure InitData where
  script_file : String
  continue_on_error : Option Bool
  proxy : Option Bool
  write_nodes : Option (List String)
  views : Option (List String)
deriving Repr, DecidableEq

/-- The action enqueued for one optional init key when it is present. -/
def optionalInitAction (key : String) (v : Option ActionValue) : List Action :=
  match v with
  | some value => [⟨key, [(key, value)]⟩]
  | none => []

/-- `NukeAdaptor._populate_action_queue`: first the `_FIRST_NUKE_ACTIONS`
(`["script_file"]`, read with `init_data[name]`), then one action per key
of `_NUKE_INIT_KEYS` that is present in `init_data`.  `_NUKE_INIT_KEYS`
is a Python set, whose iteration order is unspecified; the order below
fixes the order of the optional actions to the order of the source text,
which no claim depends on.  The adaptor's queue is empty when `on_start`
calls this, so the returned list is the queue contents afterwards. -/
def populateActionQueue (d : InitData) : List Action :=
  [⟨"script_file", [("script_file", ActionValue.strV d.script_file)]⟩]
    ++ optionalInitAction "continue_on_error" (d.continue_on_error.map ActionValue.boolV)
    ++ optionalInitAction "proxy" (d.proxy.map ActionValue.boolV)
    ++ optionalInitAction "write_nodes" (d.write_nodes.map ActionValue.strListV)
    ++ optionalInitAction "views" (d.views.map ActionValue.strListV)

/-- Spec-side count: the number of allow-listed keys of
`{continue_on_error, proxy, write_nodes, views}` present in the payload. -/
def numPresentInitKeys (d : InitData) : Nat :=
  (if d.continue_on_error.isSome then 1 else 0)
    + (if d.proxy.isSome then 1 else 0)
    + (if d.write_nodes.isSome then 1 else 0)
    + (if d.views.isSome then 1 else 0)

/-- Substring containment: true when `needle` occurs contiguously in `hay`.
`containsSub n l` is the matching semantics of the regex `.*X.*` applied
with `re.search` to a single newline-free log line. -/
def containsSub (needle : List Char) : List Char → Bool
  | [] => needle.isEmpty
  | c :: rest => needle.isPrefixOf (c :: rest) || containsSub needle rest

/-- The error rule of `NukeAdaptor.regex_callbacks`: the four patterns
`.*ERROR:.*`, `.*Error:.*`, `.*Error :.*`, `.*Eddy\[ERROR\].*`.  A rule
fires its handler once when any of its patterns matches. -/
def errorRuleMatches (l : List Char) : Bool :=
  containsSub "ERROR:".data l || containsSub "Error:".data l ||
    containsSub "Error :".data l || containsSub "Eddy[ERROR]".data l

/-- Unanchored search: does the pattern `p` match at some suffix position?
This is `re.search` trying each start position left to right. -/
def searchAt (p : List Char → Bool) : List Char → Bool
  | [] => p []
  | c :: rest => p (c :: rest) || searchAt p rest

/-- Value of a (nonempty) digit run, as Python's `int` reads it. -/
def digitsToNat (l : List Char) : Nat :=
  l.foldl (fun n c => 10 * n + (c.toNat - 48)) 0

/-- Match `NukeClient: Finished Rendering Frame [0-9]+` at this position. -/
def matchFinishedFrameAt (l : List Char) : Bool :=
  let pat := "NukeClient: Finished Rendering Frame ".data
  pat.isPrefixOf l &&
    (match l.drop pat.length with
     | c :: _ => c.isDigit
     | [] => false)

/-- Match `NukeClient: Finished Rendering Frames [0-9]+-[0-9]+`
at this position. -/
def matchFinishedFramesAt (l : List Char) : Bool :=
  let pat := "NukeClient: Finished Rendering Frames ".data
  pat.isPrefixOf l &&
    (let rest := l.drop pat.length
     let s1 := rest.span Char.isDigit
     !s1.1.isEmpty &&
       (match s1.2 with
        | '-' :: c :: _ => c.isDigit
        | _ => false))

/-- The completed rule of `regex_callbacks`: either of its two patterns. -/
def completedRuleMatches (l : List Char) : Bool :=
  searchAt matchFinishedFrameAt l || searchAt matchFinishedFramesAt l

/-- Match the progress pattern
`NukeClient: Creating outputs ([0-9]+)-([0-9]+) of ([0-9]+) total outputs.`
at this position, returning the three captured integers.  The final `.` of
the pattern is the regex any-character, so one more non-newline character
must follow `total outputs`. -/
def parseProgressAt (l : List Char) : Option (Nat × Nat × Nat) :=
  let pat := "NukeClient: Creating outputs ".data
  if pat.isPrefixOf l then
    let rest := l.drop pat.length
    let s1 := rest.span Char.isDigit
    if s1.1.isEmpty then none
    else
      match s1.2 with
      | '-' :: r2 =>
        let s2 := r2.span Char.isDigit
        if s2.1.isEmpty then none
        else if " of ".data.isPrefixOf s2.2 then
          let r4 := s2.2.drop 4
          let s3 := r4.span Char.isDigit
          if s3.1.isEmpty then none
          else
            let tailPat := " total outputs".data
            if tailPat.isPrefixOf s3.2 then
              match s3.2.drop tailPat.length with
              | c :: _ =>
                if c ≠ '\n' then some (digitsToNat s1.1, digitsToNat s2.1, digitsToNat s3.1)
                else none
              | [] => none
            else none
        else none
      | _ => none
  else none

/-- Leftmost match of the progress pattern in the line (`re.search`). -/
def searchProgress : List Char → Option (Nat × Nat × Nat)
  | [] => none
  | c :: rest =>
    match parseProgressAt (c :: rest) with
    | some g => some g
    | none => searchProgress rest

/-- Match ` took [0-9\.]+ seconds` at this position.  The char class run
is maximal: ` seconds` starts with a blank, which the class excludes, so
backtracking cannot end the run early. -/
def matchTookAt (l : List Char) : Bool :=
  let pat := " took ".data
  pat.isPrefixOf l &&
    (let rest := l.drop pat.length
     let s := rest.span (fun c => c.isDigit || c == '.')
     !s.1.isEmpty && " seconds".data.isPrefixOf s.2)

/-- Match `Writing .+ took [0-9\.]+ seconds` at this position: after
`Writing ` the `.+` must consume at least one character before a position
where ` took [0-9\.]+ seconds` matches. -/
def matchWritingTookAt (l : List Char) : Bool :=
  "Writing ".data.isPrefixOf l &&
    (match l.drop 8 with
     | [] => false
     | _ :: t => searchAt matchTookAt t)

/-- The output-complete rule of `regex_callbacks`:
`Writing .+ took [0-9\.]+ seconds` searched anywhere in the line. -/
def outputCompleteRuleMatches (l : List Char) : Bool :=
  searchAt matchWritingTookAt l

/-- Round half to even, the rounding Python's `round` builtin uses
(floating-point representation noise aside: floats are modelled as exact
rationals here). -/
def roundHalfEven (x : ℚ) : ℤ :=
  if x - ⌊x⌋ < 1 / 2 then ⌊x⌋
  else if 1 / 2 < x - ⌊x⌋ then ⌊x⌋ + 1
  else if 2 ∣ ⌊x⌋ then ⌊x⌋ else ⌊x⌋ + 1

/-- Python's `round(x, 2)`: round to two decimal places. -/
def roundTo2 (x : ℚ) : ℚ := ((roundHalfEven (x * 100) : ℤ) : ℚ) / 100

/-- The `NukeAdaptor.progress` property:
`max(min(round(100.0 * self._curr_output / self._total_outputs, 2), 100), 0)`.
Division by zero yields 0 in ℚ where Python would raise; `_total_outputs`
starts at 1 and the claims assume it stays ≥ 1. -/
def progressOf (c t : Nat) : ℚ :=
  max (min (roundTo2 (100 * (c : ℚ) / (t : ℚ))) 100) 0

/-- Spec-side formula: `clamp(round(100 * current / total, 2), 0, 100)`
with `clamp(x, lo, hi) = max(lo, min(x, hi))`. -/
def progressSpecClamp (c t : Nat) : ℚ :=
  max 0 (min (roundTo2 (100 * (c : ℚ) / (t : ℚ))) 100)

/-- The mutable state of a `NukeAdaptor` instance that the log callbacks,
`on_run` and `on_cleanup` read and write.  `continueOnError` is the
`continue_on_error` property (a constant read of `init_data`, stored here
as a field); `nukeRunning` is `_nuke_is_running`; `serverStarted` is
whether `_server` is not `None`; `reported` collects the progress values
pushed through `update_status`, in order. -/
structure AdaptorState where
  currOutput : Nat
  totalOutputs : Nat
  isRendering : Bool
  excInfo : Option String
  performingCleanup : Bool
  continueOnError : Bool
  nukeRunning : Bool
  serverStarted : Bool
  queue : List Action
  reported : List ℚ
deriving Repr, DecidableEq

/-- The adaptor's progress property evaluated on a state. -/
def AdaptorState.progress (st : AdaptorState) : ℚ :=
  progressOf st.currOutput st.totalOutputs

/-- Push one progress value through `update_status`. -/
def updateStatus (st : AdaptorState) (p : ℚ) : AdaptorState :=
  { st with reported := st.reported ++ [p] }

/-- The `_has_exception` property: raises the stored exception unless
cleanup is in progress, and otherwise reports `False`. -/
def hasExceptionCheck (st : AdaptorState) : Except String Bool :=
  match st.excInfo with
  | some e => if st.performingCleanup then Except.ok false else Except.error e
  | none => Except.ok false

/-- The `_check_for_exception` decorator: evaluate `_has_exception`
(which may raise) and only then run the wrapped handler. -/
def checkForException (f : AdaptorState → AdaptorState) (st : AdaptorState) :
    Except String AdaptorState :=
  match hasExceptionCheck st with
  | Except.error e => Except.error e
  | Except.ok _ => Except.ok (f st)

/-- `NukeAdaptor._handle_complete`: clear the rendering flag and report
progress 100 with a status message. -/
def handleComplete (st : AdaptorState) : AdaptorState :=
  updateStatus { st with isRendering := false } 100

/-- `NukeAdaptor._handle_progress`: `_curr_output` gets the first captured
group (the span start) and `_total_outputs` the third (the total), then
the recomputed progress is reported. -/
def handleProgress (st : AdaptorState) (d1 d3 : Nat) : AdaptorState :=
  let st1 := { st with currOutput := d1, totalOutputs := d3 }
  updateStatus st1 st1.progress

/-- `NukeAdaptor._handle_output_complete`: increment `_curr_output`; when
rendering, report the recomputed progress. -/
def handleOutputComplete (st : AdaptorState) : AdaptorState :=
  let st1 := { st with currOutput := st.currOutput + 1 }
  if st1.isRendering then updateStatus st1 st1.progress else st1

/-- The message of the exception `_handle_error` stores.  `match.group(0)`
of a pattern of the form `.*X.*` applied to one newline-free log line is
the whole line. -/
def errorMessage (line : String) : String :=
  "Nuke Encountered an Error: " ++ line

/-- `NukeAdaptor._handle_error` (not decorated with
`_check_for_exception`): when `continue_on_error` is false, store a new
pending exception, overwriting any present one; otherwise do nothing. -/
def handleError (st : AdaptorState) (line : String) : AdaptorState :=
  if st.continueOnError then st
  else { st with excInfo := some (errorMessage line) }

/-- Feed one line of worker output through the four regex callbacks in
their registration order (completed, progress, output-complete, error);
the first three are decorated with `_check_for_exception` and may raise. -/
def processLine (st : AdaptorState) (line : String) : Except String AdaptorState :=
  let l := line.data
  match (if completedRuleMatches l then checkForException handleComplete st
         else Except.ok st) with
  | Except.error e => Except.error e
  | Except.ok st1 =>
    match (match searchProgress l with
           | some (d1, _, d3) => checkForException (fun s => handleProgress s d1 d3) st1
           | none => Except.ok st1) with
    | Except.error e => Except.error e
    | Except.ok st2 =>
      match (if outputCompleteRuleMatches l then checkForException handleOutputComplete st2
             else Except.ok st2) with
      | Except.error e => Except.error e
      | Except.ok st3 => Except.ok (if errorRuleMatches l then handleError st3 line else st3)

/-- The pending-exception slot after one line is processed: `none` when a
decorated handler raised, otherwise the new slot contents. -/
def excInfoAfterLine (st : AdaptorState) (line : String) : Option (Option String) :=
  match processLine st line with
  | Except.ok st2 => some st2.excInfo
  | Except.error _ => none

/-- Boolean check that a list of reported values never decreases. -/
def nonDecr : List ℚ → Bool
  | [] => true
  | [_] => true
  | a :: b :: rest => (decide (a ≤ b)) && nonDecr (b :: rest)

/-- A progress-relevant log event during a render, as the claims describe
them: a progress-rule match carries its span start and total, the other
two carry no data. -/
inductive RenderEvent where
  | progressEvt (a total : Nat)
  | outputCompleteEvt
  | completeEvt
deriving Repr, DecidableEq

/-- Dispatch one render event to its (decorated) handler. -/
def applyEvent (st : AdaptorState) : RenderEvent → Except String AdaptorState
  | RenderEvent.progressEvt a t => checkForException (fun s => handleProgress s a t) st
  | RenderEvent.outputCompleteEvt => checkForException handleOutputComplete st
  | RenderEvent.completeEvt => checkForException handleComplete st

/-- Apply a sequence of render events, stopping at a raised exception. -/
def runEvents (st : AdaptorState) : List RenderEvent → Except String AdaptorState
  | [] => Except.ok st
  | e :: es =>
    match applyEvent st e with
    | Except.error m => Except.error m
    | Except.ok st2 => runEvents st2 es

/-- The full list of reported progress values after a sequence of render
events (`none` when a handler raised). -/
def reportedAfter (st : AdaptorState) (evs : List RenderEvent) : Option (List ℚ) :=
  match runEvents st evs with
  | Except.ok st2 => some st2.reported
  | Except.error _ => none

/-- The errors `on_run` can raise. -/
inductive RunError where
  | nukeNotRunning (msg : String)
  | nukeError (msg : String)
  | exitedEarly (msg : String)
deriving Repr, DecidableEq

/-- The `NukeNotRunningError` message of `on_run`. -/
def notRunningMessage : String := "Cannot render because Nuke is not running."

/-- The entry of `NukeAdaptor.on_run`, up to the enqueue: raise
`NukeNotRunningError` when the Nuke client is not running (leaving the
state untouched); otherwise validate `run_data` (abstracted: `frameRange`
is the validated payload), set `_is_rendering` and enqueue the
`start_render` action at the back of the queue. -/
def onRunEnqueue (st : AdaptorState) (frameRange : String) : AdaptorState × Option RunError :=
  if !st.nukeRunning then
    (st, some (RunError.nukeNotRunning notRunningMessage))
  else
    ({ st with
        isRendering := true,
        queue := st.queue ++ [⟨"start_render", [("frameRange", ActionValue.strV frameRange)]⟩] },
     none)

/-- The message of the fatal `RuntimeError` `on_run` raises when the Nuke
process exited during a render (`exit_code` is the subprocess's
`returncode`). -/
def exitedEarlyMessage (exitCode : Int) : String :=
  "Nuke exited early and did not render successfully, please check render logs. Exit code "
    ++ toString exitCode

/-- The busy-wait of `on_run` evaluated on the state observed when the
loop guard `self._nuke_is_running and self._is_rendering and not
self._has_exception` is (re-)evaluated, together with the post-loop check:
if the client stopped running the guard short-circuits and the post-loop
check raises the exit-code `RuntimeError`; if rendering finished the call
returns; if a pending exception exists while still rendering,
`_has_exception` raises it; otherwise the loop keeps waiting (`none`). -/
def onRunWait (st : AdaptorState) (exitCode : Int) : Option (Except RunError Unit) :=
  if !st.nukeRunning then
    some (Except.error (RunError.exitedEarly (exitedEarlyMessage exitCode)))
  else if !st.isRendering then some (Except.ok ())
  else
    match hasExceptionCheck st with
    | Except.error e => some (Except.error (RunError.nukeError e))
    | Except.ok _ => none

/-- The externally visible steps `on_cleanup` performs, in order. -/
inductive CleanupEvent where
  | closeEnqueued
  | terminationStep (forced : Bool)
  | serverShutdownStep
deriving Repr, DecidableEq

/-- The `Action("close")` enqueued at the front during cleanup. -/
def closeAction : Action := ⟨"close", []⟩

/-- `NukeAdaptor.on_cleanup`: set `_performing_cleanup`, enqueue the close
action at the front, busy-wait up to `_NUKE_END_TIMEOUT_SECONDS` for the
client to exit, then run the one shutdown step for the client
(`terminationStep`, whose flag records whether the client was still alive
after the wait, in which case `terminate()` is called) and — when the
server exists — the one `shutdown()` of the IPC server, and finally clear
`_performing_cleanup`.  `nukeAliveAfterWait` is the observed outcome of
the bounded wait; the server-thread join (log-only on failure) is not
modelled.  No step checks `_has_exception`, so cleanup never raises. -/
def onCleanup (st : AdaptorState) (nukeAliveAfterWait : Bool) :
    AdaptorState × List CleanupEvent :=
  let st1 : AdaptorState := { st with performingCleanup := true }
  let st2 : AdaptorState := { st1 with queue := closeAction :: st1.queue }
  let evts : List CleanupEvent :=
    [CleanupEvent.closeEnqueued, CleanupEvent.terminationStep nukeAliveAfterWait]
      ++ (if st.serverStarted then [CleanupEvent.serverShutdownStep] else [])
  ({ st2 with performingCleanup := false }, evts)

/-- The errors `NukeHandler.start_render` raises before rendering. -/
inductive FrameRangeError where
  | missingFrameRange
  | invalidFormat (s : String)
  | valueError (s : String)
deriving Repr, DecidableEq

/-- ASCII whitespace, which Python's `int` strips around a literal. -/
def isPySpace (c : Char) : Bool :=
  c == ' ' || c == '\t' || c == '\n' || c == '\r' || c == '\x0b' || c == '\x0c'

/-- The digit-consuming loop of Python's `int` applied to a digit-led
string: digit runs separated by single underscores, optionally followed
by trailing whitespace only. -/
def pyIntGo (acc : Nat) : List Char → Option Nat
  | [] => some acc
  | c :: rest =>
    if c.isDigit then pyIntGo (10 * acc + (c.toNat - 48)) rest
    else if c == '_' then
      match rest with
      | [] => none
      | d :: rest2 => if d.isDigit then pyIntGo (10 * acc + (d.toNat - 48)) rest2 else none
    else if (c :: rest).all isPySpace then some acc
    else none

/-- Python's `int(s)` for the strings reachable in `start_render` (they
begin with a digit; leading signs/whitespace never reach the `int` call
because the prior regex match requires a leading digit). -/
def pyIntValue (l : List Char) : Option Nat :=
  match l with
  | [] => none
  | c :: _ => if c.isDigit then pyIntGo 0 l else none

/-- The `int(frame_range)` branch of `start_render`: a failure is Python's
`ValueError` from the conversion. -/
def startRenderIntConv (s : String) : Except FrameRangeError (Nat × Nat) :=
  match pyIntValue s.data with
  | some n => Except.ok (n, n)
  | none => Except.error (FrameRangeError.valueError s)

/-- The frame-range parsing of `NukeHandler.start_render`: an empty string
raises the missing-frameRange error; `re.match(r"(\d+)-(\d+)", s)` is a
prefix match (maximal leading digit run, a dash, a maximal digit run,
anything after); failing that, `re.match(r"(\d+)", s)` only requires a
leading digit, after which `int(s)` converts the whole string (raising
`ValueError` when the whole string is not an integer literal); when no
leading digit exists the invalid-format exception is raised. -/
def parseFrameRange (s : String) : Except FrameRangeError (Nat × Nat) :=
  if s = "" then Except.error FrameRangeError.missingFrameRange
  else
    let s1 := s.data.span Char.isDigit
    if s1.1.isEmpty then Except.error (FrameRangeError.invalidFormat s)
    else
      match s1.2 with
      | c :: r2 =>
        if c = '-' then
          let s2 := r2.span Char.isDigit
          if s2.1.isEmpty then startRenderIntConv s
          else Except.ok (digitsToNat s1.1, digitsToNat s2.1)
        else startRenderIntConv s
      | [] => startRenderIntConv s

/-- Whether `parseFrameRange` returned a frame pair. -/
def parsesOk (s : String) : Bool :=
  match parseFrameRange s with
  | Except.ok _ => true
  | Except.error _ => false

/-- Spec-side form: the whole string is `<start>-<end>` or `<frame>`
(digits only). -/
def isFullFrameRangeForm (s : String) : Bool :=
  let s1 := s.data.span Char.isDigit
  !s1.1.isEmpty &&
    (s1.2.isEmpty ||
      (match s1.2 with
       | c :: r2 =>
         let s2 := r2.span Char.isDigit
         c = '-' && !s2.1.isEmpty && s2.2.isEmpty
       | [] => false))

/-- The string begins with `<digits>-<digits>` (the prefix the first
`re.match` of `start_render` accepts), whatever follows. -/
def hasRangePrefixForm (s : String) : Bool :=
  let s1 := s.data.span Char.isDigit
  !s1.1.isEmpty &&
    (match s1.2 with
     | c :: r2 => c = '-' && !(r2.span Char.isDigit).1.isEmpty
     | [] => false)

/-- The string is a digit-led Python integer literal (so `int` accepts
it: digit runs split by single underscores plus trailing whitespace). -/
def isDigitLedIntLiteral (s : String) : Bool :=
  (pyIntValue s.data).isSome

/-- The `NukeAdaptor.continue_on_error` property:
`self.init_data.get("continue_on_error", True)`. -/
def adaptorContinueOnError (d : InitData) : Bool :=
  d.continue_on_error.getD true

/-- The render state of `NukeHandler` relevant to `continueOnError`:
`render_kwargs["continueOnError"]`. -/
structure HandlerState where
  continueOnError : Bool
deriving Repr, DecidableEq

/-- `NukeHandler.__init__`: `render_kwargs = {"continueOnError": True}`. -/
def initialHandlerState : HandlerState := ⟨true⟩

/-- Python's `bool(data.get(key, True))`. -/
def dataGetTruthy (data : List (String × ActionValue)) (key : String) : Bool :=
  match data.lookup key with
  | some v => v.truthy
  | none => true

/-- Dispatch one adaptor action through `NukeHandler.action_dict` as far
as `render_kwargs["continueOnError"]` is concerned: only
`set_continue_on_error` writes it (`script_file`, `proxy`, `views`,
`write_nodes` and `start_render` leave it untouched). -/
def handlerApplyAction (h : HandlerState) (a : Action) : HandlerState :=
  if a.name = "continue_on_error" then
    { h with continueOnError := dataGetTruthy a.data "continue_on_error" }
  else h

/-- The per-node render loop of `NukeHandler.start_render`: an exception
from `nuke.execute` on a node is caught and printed, and re-raised only
when `continueOnError` is false.  Each node is abstracted to whether its
execution raises; the result counts the nodes run. -/
def runWriteNodes (coe : Bool) : List Bool → Except String Nat
  | [] => Except.ok 0
  | failsNode :: rest =>
    if failsNode && !coe then Except.error "node raised"
    else (runWriteNodes coe rest).map (· + 1)

/-- C1: for every valid initialization payload, the populated action queue
has length 1 + (number of the four allow-listed keys present), and the
action dequeued first is the required "script_file" action. -/
theorem populateActionQueue_length_and_first (d : InitData) :
    (populateActionQueue d).length = 1 + numPresentInitKeys d ∧
    (populateActionQueue d).head?.map Action.name = some "script_file" := by
  constructor
  · rcases d with ⟨sf, coe, px, wn, vs⟩
    rcases coe <;> rcases px <;> rcases wn <;> rcases vs <;>
      simp [populateActionQueue, optionalInitAction, numPresentInitKeys]
  · rfl

theorem roundHalfEven_ge_floor (x : ℚ) : ⌊x⌋ ≤ roundHalfEven x := by
  unfold roundHalfEven
  split_ifs <;> omega

theorem roundHalfEven_le_floor_succ (x : ℚ) : roundHalfEven x ≤ ⌊x⌋ + 1 := by
  unfold roundHalfEven
  split_ifs <;> omega

theorem roundHalfEven_mono {x y : ℚ} (h : x ≤ y) : roundHalfEven x ≤ roundHalfEven y := by
  have hf := Int.floor_mono h
  rcases eq_or_lt_of_le hf with heq | hlt
  · have hxy : x - (⌊x⌋ : ℚ) ≤ y - (⌊x⌋ : ℚ) := by linarith
    unfold roundHalfEven
    rw [← heq]
    split_ifs <;> first | omega | (exfalso; linarith)
  · calc roundHalfEven x ≤ ⌊x⌋ + 1 := roundHalfEven_le_floor_succ x
      _ ≤ ⌊y⌋ := by omega
      _ ≤ roundHalfEven y := roundHalfEven_ge_floor y

theorem roundTo2_mono {x y : ℚ} (h : x ≤ y) : roundTo2 x ≤ roundTo2 y := by
  unfold roundTo2
  have h2 : roundHalfEven (x * 100) ≤ roundHalfEven (y * 100) :=
    roundHalfEven_mono (by linarith)
  have h3 : ((roundHalfEven (x * 100) : ℤ) : ℚ) ≤ ((roundHalfEven (y * 100) : ℤ) : ℚ) := by
    exact_mod_cast h2
  gcongr

theorem progressOf_nonneg (c t : Nat) : 0 ≤ progressOf c t := le_max_right _ _

theorem progressOf_le_100 (c t : Nat) : progressOf c t ≤ 100 := by
  unfold progressOf
  exact max_le (min_le_right _ _) (by norm_num)

theorem progressOf_mono {c c' : Nat} (t : Nat) (h : c ≤ c') :
    progressOf c t ≤ progressOf c' t := by
  unfold progressOf
  have key : 100 * (c : ℚ) / (t : ℚ) ≤ 100 * (c' : ℚ) / (t : ℚ) := by
    rcases Nat.eq_zero_or_pos t with ht | ht
    · subst ht; simp
    · have htq : (0 : ℚ) < (t : ℚ) := by exact_mod_cast ht
      have hc : (c : ℚ) ≤ (c' : ℚ) := by exact_mod_cast h
      gcongr
  exact max_le_max (min_le_min (roundTo2_mono key) le_rfl) le_rfl

/-- C3: for counters with total ≥ 1 the code's progress equals the spec's
clamp(round(100·current/total, 2), 0, 100), hence lies in [0, 100]; in
particular 1/10 → 10, 5/10 → 50, 10/10 → 100, and 11/10 clamps to 100. -/
theorem progress_clamped_rounded (c t : Nat) (_ht : 1 ≤ t) :
    progressOf c t = progressSpecClamp c t ∧
    0 ≤ progressOf c t ∧ progressOf c t ≤ 100 ∧
    progressOf 1 10 = 10 ∧ progressOf 5 10 = 50 ∧
    progressOf 10 10 = 100 ∧ progressOf 11 10 = 100 := by
  refine ⟨?_, progressOf_nonneg c t, progressOf_le_100 c t, ?_, ?_, ?_, ?_⟩
  · unfold progressOf progressSpecClamp
    exact max_comm _ _
  all_goals norm_num [progressOf, roundTo2, roundHalfEven, min_def, max_def]

/-- Witness for C3 at current=5, total=10. -/
theorem progress_clamped_rounded_witness :
    progressOf 5 10 = progressSpecClamp 5 10 ∧
    0 ≤ progressOf 5 10 ∧ progressOf 5 10 ≤ 100 ∧
    progressOf 1 10 = 10 ∧ progressOf 5 10 = 50 ∧
    progressOf 10 10 = 100 ∧ progressOf 11 10 = 100 :=
  progress_clamped_rounded 5 10 (by decide)

/-- C2: a line matching any of the four error-marker variants, fed through
the adaptor's regex callbacks from a state with an empty exception slot,
records exactly one pending exception when continue_on_error is false —
its message extends the matched line verbatim — and records none when
continue_on_error is true. -/
theorem errorRule_records_single_pending_exception (st : AdaptorState) (line : String)
    (hexc : st.excInfo = none) (hm : errorRuleMatches line.data = true) :
    (st.continueOnError = false →
        excInfoAfterLine st line = some (some (errorMessage line))) ∧
    (st.continueOnError = true → excInfoAfterLine st line = some none) ∧
    errorMessage line = "Nuke Encountered an Error: " ++ line := by
  refine ⟨fun hcoe => ?_, fun hcoe => ?_, rfl⟩ <;>
  · unfold excInfoAfterLine processLine
    rcases hc : completedRuleMatches line.data <;>
      rcases hsp : searchProgress line.data with _ | ⟨d1, d2, d3⟩ <;>
        rcases ho : outputCompleteRuleMatches line.data <;>
          rcases hr : st.isRendering <;>
            simp [hc, hsp, ho, hm, hcoe, hr, checkForException, hasExceptionCheck, hexc,
              handleComplete, handleProgress, handleOutputComplete, updateStatus, handleError]

/-- Witness for C2 on the line "ERROR: boom" with continue_on_error false
and then true. -/
theorem errorRule_records_single_pending_exception_witness :
    excInfoAfterLine ⟨1, 1, false, none, false, false, true, true, [], []⟩ "ERROR: boom"
        = some (some (errorMessage "ERROR: boom")) ∧
    excInfoAfterLine ⟨1, 1, false, none, false, true, true, true, [], []⟩ "ERROR: boom"
        = some none :=
  ⟨(errorRule_records_single_pending_exception _ "ERROR: boom" rfl (by decide)).1 rfl,
   (errorRule_records_single_pending_exception _ "ERROR: boom" rfl (by decide)).2.1 rfl⟩

/-- C5 counterexample: with continue_on_error false and a pending
exception already stored, a second error-rule match is not suppressed: it
replaces the slot contents with the new line's message. -/
theorem pendingException_suppression_counterexample :
    excInfoAfterLine
        ⟨1, 1, false, some "Nuke Encountered an Error: ERROR: first", false, false, true, true,
          [], []⟩
        "ERROR: second"
      = some (some "Nuke Encountered an Error: ERROR: second") ∧
    ("Nuke Encountered an Error: ERROR: second" : String) ≠
      "Nuke Encountered an Error: ERROR: first" :=
  ⟨by decide, by decide⟩

/-- C5 (amended): the slot holds at most one outstanding error, but it is
last-writer-wins rather than write-once: an error-rule match with
continue_on_error false always stores the new message, overwriting any
pending one; outside cleanup a pending exception is raised at the next
pending-exception check, while during cleanup the check reports false. -/
theorem pendingException_last_writer_wins (st : AdaptorState) (line : String)
    (hcoe : st.continueOnError = false) :
    (handleError st line).excInfo = some (errorMessage line) ∧
    (∀ e, st.excInfo = some e → st.performingCleanup = false →
        hasExceptionCheck st = Except.error e) ∧
    (∀ e, st.excInfo = some e → st.performingCleanup = true →
        hasExceptionCheck st = Except.ok false) := by
  refine ⟨by simp [handleError, hcoe], fun e he hp => ?_, fun e he hp => ?_⟩ <;>
    simp [hasExceptionCheck, he, hp]

/-- Witness for C5's amended claim: overwriting a pending exception. -/
theorem pendingException_last_writer_wins_witness :
    (handleError
        ⟨1, 1, false, some "Nuke Encountered an Error: ERROR: first", false, false, true, true,
          [], []⟩
        "ERROR: second").excInfo = some (errorMessage "ERROR: second") :=
  (pendingException_last_writer_wins _ "ERROR: second" rfl).1

/-- C4 counterexample: a progress-rule event can lower the reported
progress.  From a fresh rendering state, the events "outputs 0-2 of 4",
three output-complete lines and then "outputs 2-4 of 4" report
[0, 25, 50, 75, 50], which decreases at the last step. -/
theorem progress_monotone_counterexample :
    reportedAfter ⟨1, 1, true, none, false, true, true, true, [], []⟩
        [RenderEvent.progressEvt 0 4, RenderEvent.outputCompleteEvt,
         RenderEvent.outputCompleteEvt, RenderEvent.outputCompleteEvt,
         RenderEvent.progressEvt 2 4]
      = some [0, 25, 50, 75, 50] ∧
    nonDecr [0, 25, 50, 75, 50] = false := by
  have h0 : progressOf 0 4 = 0 := by
    norm_num [progressOf, roundTo2, roundHalfEven, min_def, max_def]
  have h1 : progressOf 1 4 = 25 := by
    norm_num [progressOf, roundTo2, roundHalfEven, min_def, max_def]
  have h2 : progressOf 2 4 = 50 := by
    norm_num [progressOf, roundTo2, roundHalfEven, min_def, max_def]
  have h3 : progressOf 3 4 = 75 := by
    norm_num [progressOf, roundTo2, roundHalfEven, min_def, max_def]
  constructor
  · simp [reportedAfter, runEvents, applyEvent, checkForException, hasExceptionCheck,
      handleProgress, handleOutputComplete, updateStatus, AdaptorState.progress, h0, h1, h2, h3]
  · decide

theorem applyEvent_reported (st : AdaptorState) (e : RenderEvent) (stm : AdaptorState)
    (h : applyEvent st e = Except.ok stm) :
    ∀ p ∈ stm.reported, p ∈ st.reported ∨ (0 ≤ p ∧ p ≤ 100) := by
  intro p hp
  cases e with
  | progressEvt a t =>
    simp only [applyEvent, checkForException] at h
    cases hchk : hasExceptionCheck st with
    | error m => rw [hchk] at h; simp at h
    | ok b =>
      rw [hchk] at h
      simp only [Except.ok.injEq] at h
      subst h
      simp [handleProgress, updateStatus, AdaptorState.progress] at hp
      rcases hp with hp | rfl
      · exact Or.inl hp
      · exact Or.inr ⟨progressOf_nonneg _ _, progressOf_le_100 _ _⟩
  | outputCompleteEvt =>
    simp only [applyEvent, checkForException] at h
    cases hchk : hasExceptionCheck st with
    | error m => rw [hchk] at h; simp at h
    | ok b =>
      rw [hchk] at h
      simp only [Except.ok.injEq] at h
      subst h
      rcases hr : st.isRendering
      · simp [handleOutputComplete, hr] at hp
        exact Or.inl hp
      · simp [handleOutputComplete, hr, updateStatus, AdaptorState.progress] at hp
        rcases hp with hp | rfl
        · exact Or.inl hp
        · exact Or.inr ⟨progressOf_nonneg _ _, progressOf_le_100 _ _⟩
  | completeEvt =>
    simp only [applyEvent, checkForException] at h
    cases hchk : hasExceptionCheck st with
    | error m => rw [hchk] at h; simp at h
    | ok b =>
      rw [hchk] at h
      simp only [Except.ok.injEq] at h
      subst h
      simp [handleComplete, updateStatus] at hp
      rcases hp with hp | rfl
      · exact Or.inl hp
      · exact Or.inr ⟨by norm_num, le_refl _⟩

/-- C4 (amended): output-complete and render-complete events never lower
the reported progress — every value they append is at least the pre-event
progress and lies in [0, 100], and every value any event sequence reports
lies in [0, 100] — but a progress-rule event may lower it (it resets the
output counter from the matched line), so an arbitrary event sequence need
not report a monotone sequence. -/
theorem progress_monotone_amended :
    (∀ st : AdaptorState, ∀ e : RenderEvent, ∀ st2 : AdaptorState,
        (e = RenderEvent.outputCompleteEvt ∨ e = RenderEvent.completeEvt) →
        applyEvent st e = Except.ok st2 →
        st2.reported.take st.reported.length = st.reported ∧
        ∀ p ∈ st2.reported.drop st.reported.length,
          st.progress ≤ p ∧ 0 ≤ p ∧ p ≤ 100) ∧
    (∀ st : AdaptorState, ∀ evs : List RenderEvent, ∀ st2 : AdaptorState,
        runEvents st evs = Except.ok st2 →
        ∀ p ∈ st2.reported, p ∈ st.reported ∨ (0 ≤ p ∧ p ≤ 100)) := by
  constructor
  · intro st e st2 he h
    rcases he with rfl | rfl
    · simp only [applyEvent, checkForException] at h
      cases hchk : hasExceptionCheck st with
      | error m => rw [hchk] at h; simp at h
      | ok b =>
        rw [hchk] at h
        simp only [Except.ok.injEq] at h
        subst h
        rcases hr : st.isRendering
        · simp [handleOutputComplete, hr, List.take_length, List.drop_length]
        · constructor
          · simp [handleOutputComplete, hr, updateStatus, List.take_left]
          · intro p hp
            simp [handleOutputComplete, hr, updateStatus, List.drop_left,
              AdaptorState.progress] at hp
            subst hp
            exact ⟨progressOf_mono st.totalOutputs (Nat.le_succ st.currOutput),
              progressOf_nonneg _ _, progressOf_le_100 _ _⟩
    · simp only [applyEvent, checkForException] at h
      cases hchk : hasExceptionCheck st with
      | error m => rw [hchk] at h; simp at h
      | ok b =>
        rw [hchk] at h
        simp only [Except.ok.injEq] at h
        subst h
        constructor
        · simp [handleComplete, updateStatus, List.take_left]
        · intro p hp
          simp [handleComplete, updateStatus, List.drop_left] at hp
          subst hp
          exact ⟨progressOf_le_100 _ _, by norm_num, le_refl _⟩
  · intro st evs
    induction evs generalizing st with
    | nil =>
      intro st2 h p hp
      simp only [runEvents, Except.ok.injEq] at h
      subst h
      exact Or.inl hp
    | cons e es ih =>
      intro st2 h p hp
      simp only [runEvents] at h
      cases hae : applyEvent st e with
      | error m => rw [hae] at h; simp at h
      | ok stm =>
        rw [hae] at h
        rcases ih stm st2 h p hp with hmem | hb
        · exact applyEvent_reported st e stm hae p hmem
        · exact Or.inr hb

/-- C6 counterexample: "5-10x" matches neither of the spec's two full
forms, yet start_render does not raise: the prefix match parses it to
(5, 10). -/
theorem frameRange_malformed_counterexample :
    isFullFrameRangeForm "5-10x" = false ∧
    parseFrameRange "5-10x" = Except.ok (5, 10) :=
  ⟨rfl, rfl⟩

theorem pyIntGo_dropWhile_not_dash :
    ∀ (l : List Char) (acc n : Nat), pyIntGo acc l = some n →
      (l.dropWhile Char.isDigit).head? ≠ some '-' := by
  intro l
  induction l with
  | nil => intro acc n _h; simp
  | cons c rest ih =>
    intro acc n h
    by_cases hc : c.isDigit = true
    · rw [List.dropWhile_cons, if_pos hc]
      unfold pyIntGo at h
      rw [if_pos hc] at h
      exact ih _ _ h
    · rw [List.dropWhile_cons, if_neg hc]
      simp only [List.head?_cons, ne_eq, Option.some.injEq]
      intro hcc
      subst hcc
      have hdd : ('-' : Char).isDigit = false := by decide
      have hdu : (('-' : Char) == '_') = false := by decide
      have hds : isPySpace '-' = false := by decide
      unfold pyIntGo at h
      rw [hdd, hdu] at h
      simp [List.all_cons, hds] at h

/-- C6 (amended): "5-10" parses to (5, 10) and "7" to (7, 7); parsing is
prefix-based, so any string beginning with `<digits>-<digits>` parses
without error (whatever trails), any digit-led integer literal accepted
by `int` parses without error, and an error is raised exactly for the
strings that are neither. -/
theorem frameRange_parse_characterization :
    parseFrameRange "5-10" = Except.ok (5, 10) ∧
    parseFrameRange "7" = Except.ok (7, 7) ∧
    (∀ s : String, hasRangePrefixForm s = false → isDigitLedIntLiteral s = false →
        parsesOk s = false) ∧
    (∀ s : String, hasRangePrefixForm s = true → parsesOk s = true) ∧
    (∀ s : String, isDigitLedIntLiteral s = true → parsesOk s = true) := by
  refine ⟨rfl, rfl, ?_, ?_, ?_⟩
  · intro s h1 h2
    have hnone : pyIntValue s.data = none := by
      unfold isDigitLedIntLiteral at h2
      rcases hpv : pyIntValue s.data with _ | n
      · rfl
      · rw [hpv] at h2; simp at h2
    unfold parsesOk parseFrameRange
    by_cases hs : s = ""
    · simp [hs]
    · rw [if_neg hs]
      rcases hsp : s.data.span Char.isDigit with ⟨d1, r1⟩
      unfold hasRangePrefixForm at h1
      simp only [hsp] at h1
      simp only [hsp]
      rcases hd1 : d1.isEmpty
      · rw [hd1] at h1
        simp only [Bool.not_false, Bool.true_and] at h1
        rcases r1 with _ | ⟨c, r2⟩
        · simp [startRenderIntConv, hnone]
        · by_cases hc : c = '-'
          · subst hc
            simp at h1
            simp [h1, startRenderIntConv, hnone]
          · simp [hc, startRenderIntConv, hnone]
      · simp [hd1]
  · intro s h1
    have hs : s ≠ "" := by
      intro hs
      rw [hs] at h1
      exact absurd h1 (by decide)
    unfold parsesOk parseFrameRange
    rw [if_neg hs]
    rcases hsp : s.data.span Char.isDigit with ⟨d1, r1⟩
    unfold hasRangePrefixForm at h1
    simp only [hsp] at h1
    simp only [hsp]
    rcases r1 with _ | ⟨c, r2⟩
    · simp at h1
    · simp only [Bool.and_eq_true] at h1
      obtain ⟨h1a, h1b⟩ := h1
      simp only [Bool.and_eq_true, decide_eq_true_eq] at h1b
      obtain ⟨hc, hd2⟩ := h1b
      subst hc
      have e1 : d1.isEmpty = false := by
        cases hb : d1.isEmpty
        · rfl
        · rw [hb] at h1a; exact absurd h1a (by decide)
      have e2 : (r2.span Char.isDigit).1.isEmpty = false := by
        cases hb : (r2.span Char.isDigit).1.isEmpty
        · rfl
        · rw [hb] at hd2; exact absurd hd2 (by decide)
      obtain ⟨d, rest, rfl, hdig⟩ : ∃ d rest, r2 = d :: rest ∧ d.isDigit = true := by
        cases r2 with
        | nil => simp [List.span_eq_take_drop] at e2
        | cons d rest =>
          refine ⟨d, rest, rfl, ?_⟩
          by_cases hd : d.isDigit
          · exact hd
          · simp [List.span_eq_take_drop, List.takeWhile, hd] at e2
      simp [e1, List.span_eq_take_drop, List.takeWhile, hdig]
  · intro s h
    obtain ⟨n, hpv⟩ : ∃ n, pyIntValue s.data = some n := by
      unfold isDigitLedIntLiteral at h
      rcases hx : pyIntValue s.data with _ | n
      · rw [hx] at h; simp at h
      · exact ⟨n, rfl⟩
    have hs : s ≠ "" := by
      intro h0
      have h00 : ("" : String).data = [] := rfl
      rw [h0, h00] at hpv
      simp [pyIntValue] at hpv
    unfold parsesOk parseFrameRange
    rw [if_neg hs]
    rcases hsp : s.data.span Char.isDigit with ⟨d1, r1⟩
    simp only [hsp]
    rw [List.span_eq_take_drop, Prod.mk.injEq] at hsp
    obtain ⟨hd1, hr1⟩ := hsp
    have hgo : pyIntGo 0 s.data = some n := by
      rcases hl : s.data with _ | ⟨c, t⟩
      · rw [hl] at hpv; simp [pyIntValue] at hpv
      · rw [hl] at hpv
        simp only [pyIntValue] at hpv
        by_cases hc : c.isDigit = true
        · rw [if_pos hc] at hpv; exact hpv
        · rw [if_neg hc] at hpv; exact absurd hpv (by simp)
    have e1 : d1.isEmpty = false := by
      rcases hl : s.data with _ | ⟨c, t⟩
      · rw [hl] at hpv; simp [pyIntValue] at hpv
      · have hc : c.isDigit = true := by
          by_cases hc : c.isDigit = true
          · exact hc
          · rw [hl] at hpv
            simp only [pyIntValue] at hpv
            rw [if_neg hc] at hpv
            exact absurd hpv (by simp)
        rw [hl] at hd1
        simp only [List.takeWhile_cons, hc, if_true] at hd1
        rw [← hd1]
        rfl
    rcases r1 with _ | ⟨c2, r2⟩
    · simp [e1, startRenderIntConv, hpv]
    · by_cases hc2 : c2 = '-'
      · exfalso
        subst hc2
        have hnd := pyIntGo_dropWhile_not_dash s.data 0 n hgo
        rw [hr1] at hnd
        exact hnd rfl
      · simp [e1, hc2, startRenderIntConv, hpv]

/-- C7: when the Nuke client process is not running, on_run raises
NukeNotRunningError before enqueueing anything: the state (in particular
the action queue) is unchanged and no start_render action is added. -/
theorem onRun_requires_running_nuke (st : AdaptorState) (frameRange : String)
    (h : st.nukeRunning = false) :
    onRunEnqueue st frameRange = (st, some (RunError.nukeNotRunning notRunningMessage)) ∧
    (onRunEnqueue st frameRange).1.queue = st.queue := by
  have h1 : onRunEnqueue st frameRange
      = (st, some (RunError.nukeNotRunning notRunningMessage)) := by
    simp [onRunEnqueue, h]
  exact ⟨h1, by rw [h1]⟩

/-- Witness for C7 with a stopped client and frame range "1-5". -/
theorem onRun_requires_running_nuke_witness :
    onRunEnqueue ⟨1, 1, false, none, false, true, false, true, [], []⟩ "1-5"
        = ((⟨1, 1, false, none, false, true, false, true, [], []⟩ : AdaptorState),
           some (RunError.nukeNotRunning notRunningMessage)) ∧
    (onRunEnqueue ⟨1, 1, false, none, false, true, false, true, [], []⟩ "1-5").1.queue
        = (⟨1, 1, false, none, false, true, false, true, [], []⟩ : AdaptorState).queue :=
  onRun_requires_running_nuke _ "1-5" rfl

/-- C8: when the Nuke process exits during a render — the rendering flag
still set, no pending exception — on_run always raises the fatal
RuntimeError, whose message ends with the process's exit code. -/
theorem onRun_raises_on_early_exit (st : AdaptorState) (exitCode : Int)
    (hdead : st.nukeRunning = false) (_hrender : st.isRendering = true)
    (_hexc : st.excInfo = none) :
    onRunWait st exitCode
        = some (Except.error (RunError.exitedEarly (exitedEarlyMessage exitCode))) ∧
    exitedEarlyMessage exitCode
        = "Nuke exited early and did not render successfully, please check render logs. Exit code "
            ++ toString exitCode :=
  ⟨by simp [onRunWait, hdead], rfl⟩

/-- Witness for C8: a dead client observed mid-render with exit code 1. -/
theorem onRun_raises_on_early_exit_witness :
    onRunWait ⟨1, 1, true, none, false, true, false, true, [], []⟩ 1
        = some (Except.error (RunError.exitedEarly (exitedEarlyMessage 1))) ∧
    exitedEarlyMessage 1
        = "Nuke exited early and did not render successfully, please check render logs. Exit code "
            ++ toString (1 : Int) :=
  onRun_raises_on_early_exit _ 1 rfl rfl rfl

/-- C9: cleanup always runs to completion: regardless of a pending
exception or of the client having already exited, it performs exactly one
client-termination step and one server shutdown, enqueues the close
action at the front, forcefully terminates only when the client is still
alive after the end-timeout, suppresses pending-exception checks while it
runs, and clears the cleanup flag at the end. -/
theorem onCleanup_always_completes (st : AdaptorState) (alive : Bool)
    (hs : st.serverStarted = true) :
    (onCleanup st alive).2.countP
        (fun e => match e with | CleanupEvent.terminationStep _ => true | _ => false) = 1 ∧
    (onCleanup st alive).2.countP
        (fun e => match e with | CleanupEvent.serverShutdownStep => true | _ => false) = 1 ∧
    (CleanupEvent.terminationStep true ∈ (onCleanup st alive).2 ↔ alive = true) ∧
    (onCleanup st alive).1.queue.head? = some closeAction ∧
    (onCleanup st alive).1.performingCleanup = false ∧
    (∀ e, st.excInfo = some e →
        hasExceptionCheck { st with performingCleanup := true } = Except.ok false) := by
  refine ⟨?_, ?_, ?_, rfl, rfl, fun e he => by simp [hasExceptionCheck, he]⟩
  · simp [onCleanup, hs]
  · simp [onCleanup, hs]
  · rcases alive <;> simp [onCleanup, hs]

/-- Witness for C9: the client already exited (no forced termination) and
an exception is pending, server started. -/
theorem onCleanup_always_completes_witness :
    (onCleanup ⟨1, 1, false, some "boom", false, true, false, true, [], []⟩ false).2.countP
        (fun e => match e with | CleanupEvent.terminationStep _ => true | _ => false) = 1 ∧
    (onCleanup ⟨1, 1, false, some "boom", false, true, false, true, [], []⟩ false).2.countP
        (fun e => match e with | CleanupEvent.serverShutdownStep => true | _ => false) = 1 ∧
    (CleanupEvent.terminationStep true
        ∈ (onCleanup ⟨1, 1, false, some "boom", false, true, false, true, [], []⟩ false).2
      ↔ false = true) ∧
    (onCleanup ⟨1, 1, false, some "boom", false, true, false, true, [], []⟩ false).1.queue.head?
        = some closeAction ∧
    (onCleanup
        ⟨1, 1, false, some "boom", false, true, false, true, [], []⟩ false).1.performingCleanup
        = false ∧
    hasExceptionCheck
        { (⟨1, 1, false, some "boom", false, true, false, true, [], []⟩ : AdaptorState) with
            performingCleanup := true }
      = Except.ok false := by
  have h := onCleanup_always_completes
    ⟨1, 1, false, some "boom", false, true, false, true, [], []⟩ false rfl
  exact ⟨h.1, h.2.1, h.2.2.1, h.2.2.2.1, h.2.2.2.2.1, h.2.2.2.2.2 "boom" rfl⟩

/-- C10: when the payload omits continue_on_error, the adaptor property
defaults to true and the handler's render kwarg stays at its default true
(no continue_on_error action is queued), so an error-rule line records no
pending exception and a failing write node does not abort the render loop
(all nodes still run). -/
theorem continue_on_error_defaults_true (d : InitData) (nodes : List Bool) (line : String)
    (hd : d.continue_on_error = none) :
    adaptorContinueOnError d = true ∧
    ((populateActionQueue d).foldl handlerApplyAction initialHandlerState).continueOnError
        = true ∧
    (∀ st : AdaptorState, st.continueOnError = true →
        (handleError st line).excInfo = st.excInfo) ∧
    runWriteNodes true nodes = Except.ok nodes.length := by
  refine ⟨by simp [adaptorContinueOnError, hd], ?_, fun st hst => by simp [handleError, hst], ?_⟩
  · rcases d with ⟨sf, coe, px, wn, vs⟩
    simp only at hd
    subst hd
    rcases px <;> rcases wn <;> rcases vs <;>
      simp [populateActionQueue, optionalInitAction, handlerApplyAction, initialHandlerState]
  · induction nodes with
    | nil => rfl
    | cons b rest ih => simp [runWriteNodes, ih, Except.map]

/-- Witness for C10: payload without continue_on_error, one failing node
among three, an error line. -/
theorem continue_on_error_defaults_true_witness :
    adaptorContinueOnError ⟨"/path/s.nk", none, some false, none, some ["main"]⟩ = true ∧
    ((populateActionQueue ⟨"/path/s.nk", none, some false, none, some ["main"]⟩).foldl
        handlerApplyAction initialHandlerState).continueOnError = true ∧
    runWriteNodes true [false, true, false]
        = Except.ok [false, true, false].length := by
  have h := continue_on_error_defaults_true ⟨"/path/s.nk", none, some false, none, some ["main"]⟩
    [false, true, false] "ERROR: write node failed" rfl
  exact ⟨h.1, h.2.1, h.2.2.2⟩

end Nuke
